import Mathlib

/-
Shallow embedding of the data-fetching hooks of the react-lib repository:

  * src/typescript/hooks/useFetchMultiple.ts  (multi-fetch orchestrator)
  * src/unnamed/part_004, second file         (single-fetch controller, useFetch)

Modelling conventions.

JavaScript arrays with holes (the hook initialises data, errors and responses
to the empty array and then assigns arbitrary indices on copies, producing
sparse arrays) are modelled as total maps Nat → Option _, where none stands
for a hole / undefined entry.  loadingIndex is initialised by
Array(urls.length).fill(true); it is modelled as a total map Nat → Bool that
is initially true everywhere — indices at or beyond urls.length are never
consulted by any claim, and the code only writes indices at which data holds
a truthy value.

JavaScript truthiness of payload values is abstracted by a parameter
truthy : α → Bool; truthiness of an optional slot is truthyO (none, i.e. a
hole or undefined, is falsy).

The asynchronous behaviour is embedded as a transition system: an event is
the execution of one of the state-updating callbacks of the hook (a promise
handler, the effect body, refetch, or the setData setter), and a behaviour
of the hook is the fold of a list of events from the initial state.  The
React effect that derives loadingIndex from data (useFetchMultiple.ts lines
120-130) runs whenever the data array changes, so it is applied as part of
every event that writes data (bulk success, per-index success, setData) and
of no other event.
-/

/-- Model of an axios response: the payload together with residual metadata
(status code), as stored wholesale in the responses state. -/
structure AxiosResp (α : Type) where
  data : α
  status : Nat
  deriving DecidableEq

/-- Model of the error object observed by the catch handlers: its message
(err.message, possibly absent or empty), whether axios isCancel holds of it,
and the optional err.response.data.title field read by refetchIndex. -/
structure ErrObj where
  message : Option String
  cancelled : Bool
  responseTitle : Option String
  deriving DecidableEq

/-- JavaScript fallback m || "Something went wrong": the fallback is taken
when the field is absent or the empty string (both falsy). -/
def orFallback (m : Option String) : String :=
  match m with
  | some s => if s = "" then "Something went wrong" else s
  | none => "Something went wrong"

/-- Truthiness of an optional slot: a hole (undefined) is falsy, a present
value has the truthiness of the value. -/
def truthyO {α : Type} (truthy : α → Bool) : Option α → Bool
  | some v => truthy v
  | none => false

/-- Model of const a = [...prev]; a[i] = v; return a — functional single-index
update of a sparse array. -/
def setIdx {β : Type} (f : Nat → Option β) (i : Nat) (v : Option β) : Nat → Option β :=
  fun j => if j = i then v else f j

/-- Observable state of useFetchMultiple (useFetchMultiple.ts lines 61-66):
the six useState cells data, errors, error, responses, loadingIndex, retries. -/
@[ext]
structure MState (α : Type) where
  data : Nat → Option α
  errors : Nat → Option String
  error : String
  responses : Nat → Option (AxiosResp α)
  loadingIndex : Nat → Bool
  retries : Nat

/-- Initial state of useFetchMultiple: data, errors, responses empty arrays,
error the empty string, loadingIndex all true, retries 0. -/
def initM (α : Type) : MState α :=
  { data := fun _ => none
    errors := fun _ => none
    error := ""
    responses := fun _ => none
    loadingIndex := fun _ => true
    retries := 0 }

/-- Settled outcome of one bulk attempt: the axios promise either fulfilled
with a response or rejected with an error object (which is a cancellation
error when the abort controller fired first). -/
inductive MOutcome (α : Type) where
  | success (resp : AxiosResp α)
  | failure (e : ErrObj)
  deriving DecidableEq

/-- Per-request fulfilment handler of the bulk cycle (useFetchMultiple.ts
lines 78-89): writes response.data into data[index] and the response into
responses[index], on copies of the arrays.  There is no generation or
cancellation guard in the source. -/
def onSuccessM {α : Type} (index : Nat) (resp : AxiosResp α) (s : MState α) : MState α :=
  { s with
    data := setIdx s.data index (some resp.data)
    responses := setIdx s.responses index (some resp) }

/-- Per-request rejection handler of the bulk cycle (useFetchMultiple.ts
lines 90-97): writes error.message || fallback into errors[index].  The
source performs no isCancel check here, so the handler runs identically for
cancellation errors. -/
def onErrorM {α : Type} (index : Nat) (e : ErrObj) (s : MState α) : MState α :=
  { s with errors := setIdx s.errors index (some (orFallback e.message)) }

/-- Outer catch of fetchData (useFetchMultiple.ts lines 103-107): returns
without mutation on a cancellation error, otherwise writes the aggregate
error string.  It is declared for fidelity; no event of the transition
system invokes it, because await Promise.allSettled(requests) never throws
(allSettled below is total) and every per-request rejection is consumed by
the per-request catch. -/
def outerCatchM {α : Type} (e : ErrObj) (s : MState α) : MState α :=
  if e.cancelled then s else { s with error := orFallback e.message }

/-- The loadingIndex effect (useFetchMultiple.ts lines 120-130): for every
index whose data entry is present and truthy, set loadingIndex there to
false; all other entries keep their previous value.  Array.prototype.map
skips holes, and the if (d) test skips present falsy values, so only truthy
entries trigger the write. -/
def loadingEffectM {α : Type} (truthy : α → Bool) (s : MState α) : MState α :=
  { s with
    loadingIndex := fun i =>
      if truthyO truthy (s.data i) then false else s.loadingIndex i }

/-- refetch of useFetchMultiple (lines 133-135): setRetries(prev => prev + 1). -/
def refetchM {α : Type} (s : MState α) : MState α :=
  { s with retries := s.retries + 1 }

/-- Fulfilment handler of refetchIndex (useFetchMultiple.ts lines 142-153):
textually the same updates as the bulk fulfilment handler — data[index] and
responses[index] on copies. -/
def refetchIndexOnSuccessM {α : Type} (index : Nat) (resp : AxiosResp α) (s : MState α) :
    MState α :=
  { s with
    data := setIdx s.data index (some resp.data)
    responses := setIdx s.responses index (some resp) }

/-- Rejection handler of refetchIndex (useFetchMultiple.ts lines 155-162):
writes err.response.data.title || fallback into errors[index]. -/
def refetchIndexOnErrorM {α : Type} (index : Nat) (e : ErrObj) (s : MState α) : MState α :=
  { s with errors := setIdx s.errors index (some (orFallback e.responseTitle)) }

/-- The setData setter returned by useFetchMultiple (line 61, exposed line
165): replaces the whole data array. -/
def setDataM {α : Type} (v : Nat → Option α) (s : MState α) : MState α :=
  { s with data := v }

/-- One state-mutating event of useFetchMultiple: a bulk attempt settling
(fulfilment or rejection handler running), a refetchIndex attempt settling,
the effect body starting a new generation (lines 69-77: it creates abort
controllers and issues the requests but performs no state update), refetch,
or a call of the setData setter. -/
inductive MEvent (α : Type) where
  | bulkSuccess (index : Nat) (resp : AxiosResp α)
  | bulkFailure (index : Nat) (e : ErrObj)
  | indexSuccess (index : Nat) (resp : AxiosResp α)
  | indexFailure (index : Nat) (e : ErrObj)
  | genStart
  | refetch
  | setData (v : Nat → Option α)

/-- Transition function of useFetchMultiple: dispatch the event to its
handler; events that write the data array are followed by the loadingIndex
effect, which React runs after data changes. -/
def stepM {α : Type} (truthy : α → Bool) (e : MEvent α) (s : MState α) : MState α :=
  match e with
  | .bulkSuccess i resp => loadingEffectM truthy (onSuccessM i resp s)
  | .bulkFailure i err => onErrorM i err s
  | .indexSuccess i resp => loadingEffectM truthy (refetchIndexOnSuccessM i resp s)
  | .indexFailure i err => refetchIndexOnErrorM i err s
  | .genStart => s
  | .refetch => refetchM s
  | .setData v => loadingEffectM truthy (setDataM v s)

/-- Fold a list of events from an arbitrary state. -/
def runFromM {α : Type} (truthy : α → Bool) (s : MState α) (es : List (MEvent α)) : MState α :=
  es.foldl (fun t e => stepM truthy e t) s

/-- A behaviour of useFetchMultiple: a list of events applied to the initial
state. -/
def runM {α : Type} (truthy : α → Bool) (es : List (MEvent α)) : MState α :=
  runFromM truthy (initM α) es

/-- A settled promise: fulfilled or rejected. -/
inductive PResult (ε β : Type) where
  | fulfilled (v : β)
  | rejected (e : ε)
  deriving DecidableEq

/-- Semantics of Promise.allSettled: given the settlements of its input
promises it always fulfils (with the settlement records); it never rejects,
whatever the inputs did. -/
def allSettled {ε β : Type} (ps : List (PResult ε β)) : Except ε (List (PResult ε β)) :=
  Except.ok ps

/-- Value stored by setResponse in the single-fetch controller: the
fulfilment branch stores the axios response, the rejection branch stores the
error object itself (part_004 line 87). -/
inductive SResponse (α : Type) where
  | ok (resp : AxiosResp α)
  | errObj (e : ErrObj)
  deriving DecidableEq

/-- Observable state of useFetch (part_004 lines 57-61): the five useState
cells isLoading, data, error, response, retries. -/
@[ext]
structure SState (α : Type) where
  data : Option α
  isLoading : Bool
  error : String
  response : Option (SResponse α)
  retries : Nat
  deriving DecidableEq

/-- Initial state of useFetch: isLoading true, data null, error empty,
response null, retries 0. -/
def initS (α : Type) : SState α :=
  { data := none, isLoading := true, error := "", response := none, retries := 0 }

/-- Start of fetchData in useFetch (part_004 lines 68-69): re-arm the slot
before issuing the attempt — setIsLoading(true); setError(""). -/
def fetchStartS {α : Type} (s : SState α) : SState α :=
  { s with isLoading := true, error := "" }

/-- Fulfilment handler of useFetch (part_004 lines 76-81): data, response,
loading false. -/
def onResolveS {α : Type} (resp : AxiosResp α) (s : SState α) : SState α :=
  { s with
    data := some resp.data
    response := some (SResponse.ok resp)
    isLoading := false }

/-- Rejection handler of useFetch (part_004 lines 82-88), translated
verbatim: if (!isCancel(err)) return; then setError(err.message || fallback),
setIsLoading(false), setResponse(err).  Note the guard direction: the early
return fires when the error is NOT a cancellation, so only cancellation
errors reach the state writes — the opposite of the comment above it in the
source ("if the request is cancelled, do not set the error"). -/
def onRejectS {α : Type} (e : ErrObj) (s : SState α) : SState α :=
  if e.cancelled = false then s
  else
    { s with
      error := orFallback e.message
      isLoading := false
      response := some (SResponse.errObj e) }

/-- refetch of useFetch (part_004 lines 99-101): setRetries(prev => prev + 1). -/
def refetchS {α : Type} (s : SState α) : SState α :=
  { s with retries := s.retries + 1 }

/-- The setData setter returned by useFetch (line 58, exposed line 103):
overwrites data directly. -/
def setDataS {α : Type} (v : Option α) (s : SState α) : SState α :=
  { s with data := v }

/-- One state-mutating event of useFetch: the effect body starting an
attempt, the attempt settling, refetch, or the setData setter. -/
inductive SEvent (α : Type) where
  | fetchStart
  | resolve (resp : AxiosResp α)
  | reject (e : ErrObj)
  | refetch
  | setData (v : Option α)

/-- Transition function of useFetch. -/
def stepS {α : Type} (e : SEvent α) (s : SState α) : SState α :=
  match e with
  | .fetchStart => fetchStartS s
  | .resolve r => onResolveS r s
  | .reject err => onRejectS err s
  | .refetch => refetchS s
  | .setData v => setDataS v s

/-- Fold a list of events of useFetch from an arbitrary state. -/
def runFromS {α : Type} (s : SState α) (es : List (SEvent α)) : SState α :=
  es.foldl (fun t e => stepS e t) s

/-- A behaviour of useFetch: a list of events applied to the initial state. -/
def runS {α : Type} (es : List (SEvent α)) : SState α :=
  runFromS (initS α) es

/-- Concrete truthiness used for witnesses and counterexamples: a natural
number payload is truthy when it is nonzero (as in JavaScript). -/
def natTruthy : Nat → Bool := fun n => n != 0

/-- One settled bulk attempt, as an event: index paired with its outcome. -/
def settleEv {α : Type} (p : Nat × MOutcome α) : MEvent α :=
  match p.2 with
  | .success r => MEvent.bulkSuccess p.1 r
  | .failure e => MEvent.bulkFailure p.1 e

/-- Whether an outcome is a failure. -/
def isFailO {α : Type} : MOutcome α → Bool
  | .failure _ => true
  | .success _ => false

/-- Whether an outcome is a cancellation (a rejection whose error satisfies
axios isCancel). -/
def isCancelledO {α : Type} : MOutcome α → Bool
  | .failure e => e.cancelled
  | .success _ => false

/-- Number of present (non-hole) entries among the first n slots of a sparse
array. -/
def countSome {β : Type} (f : Nat → Option β) (n : Nat) : Nat :=
  (List.range n).countP (fun i => (f i).isSome)

/-- The events after which React re-runs the loadingIndex effect: exactly
those that write the data array. -/
def syncsData {α : Type} : MEvent α → Bool
  | .bulkSuccess _ _ => true
  | .indexSuccess _ _ => true
  | .setData _ => true
  | _ => false

/-- The loadingIndex array is coherent with data: every truthy data slot is
marked not loading.  This holds of every reachable state of the hook (the
effect re-establishes it whenever data changes). -/
def loadingSynced {α : Type} (truthy : α → Bool) (s : MState α) : Prop :=
  ∀ t, truthyO truthy (s.data t) = true → s.loadingIndex t = false

/-- Whether a multi-fetch event is the refetch call. -/
def isRefetchM {α : Type} : MEvent α → Bool
  | .refetch => true
  | _ => false

/-- Whether a single-fetch event is the refetch call. -/
def isRefetchS {α : Type} : SEvent α → Bool
  | .refetch => true
  | _ => false

/-! ### Basic step lemmas -/

theorem runFromM_cons {α : Type} (truthy : α → Bool) (s : MState α)
    (e : MEvent α) (es : List (MEvent α)) :
    runFromM truthy s (e :: es) = runFromM truthy (stepM truthy e s) es := rfl

theorem runFromM_append_single {α : Type} (truthy : α → Bool) (s : MState α)
    (es : List (MEvent α)) (e : MEvent α) :
    runFromM truthy s (es ++ [e]) = stepM truthy e (runFromM truthy s es) := by
  simp [runFromM, List.foldl_append]

theorem stepM_error {α : Type} (truthy : α → Bool) (e : MEvent α) (s : MState α) :
    (stepM truthy e s).error = s.error := by
  cases e <;>
    simp [stepM, onSuccessM, onErrorM, refetchIndexOnSuccessM, refetchIndexOnErrorM,
      loadingEffectM, refetchM, setDataM]

theorem runFromM_error {α : Type} (truthy : α → Bool) (s : MState α)
    (es : List (MEvent α)) :
    (runFromM truthy s es).error = s.error := by
  induction es generalizing s with
  | nil => rfl
  | cons e es ih => rw [runFromM_cons, ih, stepM_error]

/-! ### Claim theorems: generation counter, aggregate error, cancellation -/

/-- C7: the generation counter retries of both hooks is monotonically
increasing: a refetch event adds exactly 1 to it, and no other event
(setData, refetchIndex settling, attempt completion, generation start)
modifies it — in either hook. -/
theorem c7_retries_only_refetch {α : Type} (truthy : α → Bool)
    (e : MEvent α) (f : SEvent α) (s : MState α) (t : SState α) :
    (stepM truthy e s).retries = s.retries + (if isRefetchM e = true then 1 else 0) ∧
    (stepS f t).retries = t.retries + (if isRefetchS f = true then 1 else 0) := by
  constructor
  · cases e <;>
      simp [stepM, isRefetchM, onSuccessM, onErrorM, refetchIndexOnSuccessM,
        refetchIndexOnErrorM, loadingEffectM, refetchM, setDataM]
  · cases f with
    | fetchStart => simp [stepS, isRefetchS, fetchStartS]
    | resolve r => simp [stepS, isRefetchS, onResolveS]
    | reject e =>
        simp only [stepS, isRefetchS, onRejectS]
        split <;> simp
    | refetch => simp [stepS, isRefetchS, refetchS]
    | setData v => simp [stepS, isRefetchS, setDataS]

/-- C10: in the multi-fetch orchestrator the aggregate error string is
invariantly empty: no event of the hook writes it.  The only assignment in
the source is the outer catch (outerCatchM), which is unreachable because
every per-request rejection is consumed by the per-request catch handler and
Promise.allSettled always fulfils (second conjunct), so the awaited
expression never throws. -/
theorem c10_aggregate_error_invariant {α ε β : Type} (truthy : α → Bool)
    (es : List (MEvent α)) (ps : List (PResult ε β)) :
    (runM truthy es).error = "" ∧ allSettled ps = Except.ok ps := by
  refine ⟨?_, rfl⟩
  rw [runM, runFromM_error]
  rfl

/-- C1: refuted on the code — a generation-G bulk attempt that is cancelled
by the cleanup of generation G and therefore settles (rejects) after
generation G+1 has started still mutates its slot: the per-request catch has
no isCancel guard, so it writes the cancellation message into errors[0].
The trace: refetch advances the generation, genStart begins the new
generation, then the stale attempt of the old generation rejects with the
axios cancellation error (message "canceled"). -/
theorem c1_stale_generation_attempt_mutates_slot :
    (runM natTruthy [MEvent.refetch, MEvent.genStart]).errors 0 = none ∧
    (runM natTruthy [MEvent.refetch, MEvent.genStart,
        MEvent.bulkFailure 0 ⟨some "canceled", true, none⟩]).errors 0 = some "canceled" := by
  constructor
  · rfl
  · decide

/-- C2: refuted on the code — a cancelled attempt does contribute to
observable state in both hooks.  Multi-fetch: the per-request catch writes
the cancellation message into errors[0].  Single-fetch: the catch guard is
inverted (onRejectS), so a cancelled attempt is exactly the one whose
message is stored into the aggregate error, with loading also set false. -/
theorem c2_cancelled_attempt_contributes_state :
    (stepM natTruthy (MEvent.bulkFailure 0 ⟨some "canceled", true, none⟩)
        (initM Nat)).errors 0 = some "canceled" ∧
    (stepS (SEvent.reject ⟨some "canceled", true, none⟩) (initS Nat)).error = "canceled" ∧
    (stepS (SEvent.reject ⟨some "canceled", true, none⟩) (initS Nat)).isLoading = false := by
  refine ⟨by decide, by decide, by decide⟩

/-- C3: refuted on the code — the catch of useFetch swallows non-cancelled
failures wholesale (the early return fires on them, leaving error, loading
and response untouched) and surfaces cancelled failures instead, contrary to
the claim and to the comment in the source. -/
theorem c3_single_fetch_catch_is_inverted :
    stepS (SEvent.reject ⟨some "timeout", false, none⟩) (initS Nat) = initS Nat ∧
    (stepS (SEvent.reject ⟨some "canceled", true, none⟩) (initS Nat)).error = "canceled" ∧
    (stepS (SEvent.reject ⟨some "canceled", true, none⟩) (initS Nat)).isLoading = false := by
  refine ⟨by decide, by decide, by decide⟩

/-! ### Claim theorems: re-arming, setData and refetchIndex frames -/

/-- C6 counterexample: in the multi-fetch orchestrator a new generation does
not re-arm the slots.  After slot 0 stored an error and slot 1 loaded data,
starting a new generation leaves errors[0] set and loadingIndex[1] false,
contradicting the claim that every slot gets loading := true and its error
cleared. -/
theorem c6_counterexample_no_rearm_in_multi :
    ¬ ((stepM natTruthy MEvent.genStart
          (runM natTruthy [MEvent.bulkSuccess 1 ⟨5, 200⟩,
            MEvent.bulkFailure 0 ⟨some "timeout", false, none⟩])).errors 0 = none ∧
       (stepM natTruthy MEvent.genStart
          (runM natTruthy [MEvent.bulkSuccess 1 ⟨5, 200⟩,
            MEvent.bulkFailure 0 ⟨some "timeout", false, none⟩])).loadingIndex 1 = true) := by
  decide

/-- C6 (amended): only the single-fetch controller re-arms its slot at the
start of each attempt (loading := true and error cleared, with data,
response and retries untouched); the multi-fetch orchestrator performs no
state update at all when a new generation starts, so loadingIndex and
errors keep their previous values. -/
theorem c6_amended_rearm_single_only {α : Type} (truthy : α → Bool)
    (s : SState α) (m : MState α) :
    ((fetchStartS s).isLoading = true ∧ (fetchStartS s).error = "" ∧
     (fetchStartS s).data = s.data ∧ (fetchStartS s).response = s.response ∧
     (fetchStartS s).retries = s.retries) ∧
    stepM truthy MEvent.genStart m = m :=
  ⟨⟨rfl, rfl, rfl, rfl, rfl⟩, rfl⟩

/-- C9 counterexample: setData does not leave loadingIndex unaffected in the
multi-fetch orchestrator — writing a truthy value into slot 0 makes the
loadingIndex effect flip loadingIndex[0] from true to false. -/
theorem c9_counterexample_setData_affects_loading :
    ¬ ((stepM natTruthy (MEvent.setData (fun t => if t = 0 then some 1 else none))
          (initM Nat)).loadingIndex 0 = (initM Nat).loadingIndex 0) := by
  decide

/-- C9 (amended): setData bypasses the network and replaces data wholesale;
errors, the aggregate error, responses and the generation counter are
untouched in the multi-fetch orchestrator, and every field except data is
untouched in the single-fetch controller.  However, in the multi-fetch
orchestrator the loadingIndex effect runs on the new data: slots whose new
value is truthy get loadingIndex false, all others keep their value. -/
theorem c9_amended_setData_frame {α : Type} (truthy : α → Bool)
    (v : Nat → Option α) (w : Option α) (s : MState α) (t : SState α) :
    ((stepM truthy (MEvent.setData v) s).data = v ∧
     (stepM truthy (MEvent.setData v) s).errors = s.errors ∧
     (stepM truthy (MEvent.setData v) s).error = s.error ∧
     (stepM truthy (MEvent.setData v) s).responses = s.responses ∧
     (stepM truthy (MEvent.setData v) s).retries = s.retries ∧
     ∀ j, (stepM truthy (MEvent.setData v) s).loadingIndex j =
       if truthyO truthy (v j) then false else s.loadingIndex j) ∧
    ((stepS (SEvent.setData w) t).data = w ∧
     (stepS (SEvent.setData w) t).isLoading = t.isLoading ∧
     (stepS (SEvent.setData w) t).error = t.error ∧
     (stepS (SEvent.setData w) t).response = t.response ∧
     (stepS (SEvent.setData w) t).retries = t.retries) :=
  ⟨⟨rfl, rfl, rfl, rfl, rfl, fun _ => rfl⟩, ⟨rfl, rfl, rfl, rfl, rfl⟩⟩

/-- C8 counterexample: a refetchIndex success does not leave loadingIndex
unchanged — when its write makes data[1] truthy, the loadingIndex effect
flips loadingIndex[1] from true to false. -/
theorem c8_counterexample_refetchIndex_flips_loading :
    ¬ ((stepM natTruthy (MEvent.indexSuccess 1 ⟨7, 200⟩) (initM Nat)).loadingIndex 1
        = (initM Nat).loadingIndex 1) := by
  decide

/-- C8 (amended): refetchIndex runs outside the shared-generation mechanism
(its settling never changes the generation counter, and the source attaches
no abort signal to its request, so neither a bulk refetch nor teardown can
cancel it); on settling it writes only position i — data[i] and
responses[i] on success, errors[i] (from err.response.data.title) on
failure — leaving every other array position, retries, and the aggregate
error unchanged.  Exception forced by the counterexample: on a success that
makes data[i] truthy the loadingIndex effect also sets loadingIndex[i] to
false; positions other than i keep their loadingIndex value (in any state
where loadingIndex is coherent with data, as in every reachable state). -/
theorem c8_amended_refetchIndex_frame {α : Type} (truthy : α → Bool) (i : Nat)
    (resp : AxiosResp α) (e : ErrObj) (s : MState α)
    (hsync : loadingSynced truthy s) :
    ((stepM truthy (MEvent.indexSuccess i resp) s).data i = some resp.data ∧
     (stepM truthy (MEvent.indexSuccess i resp) s).responses i = some resp ∧
     (∀ j, j ≠ i →
       (stepM truthy (MEvent.indexSuccess i resp) s).data j = s.data j ∧
       (stepM truthy (MEvent.indexSuccess i resp) s).responses j = s.responses j ∧
       (stepM truthy (MEvent.indexSuccess i resp) s).loadingIndex j = s.loadingIndex j) ∧
     (stepM truthy (MEvent.indexSuccess i resp) s).errors = s.errors ∧
     (stepM truthy (MEvent.indexSuccess i resp) s).retries = s.retries ∧
     (stepM truthy (MEvent.indexSuccess i resp) s).error = s.error) ∧
    ((stepM truthy (MEvent.indexFailure i e) s).errors i
        = some (orFallback e.responseTitle) ∧
     (∀ j, j ≠ i → (stepM truthy (MEvent.indexFailure i e) s).errors j = s.errors j) ∧
     (stepM truthy (MEvent.indexFailure i e) s).data = s.data ∧
     (stepM truthy (MEvent.indexFailure i e) s).responses = s.responses ∧
     (stepM truthy (MEvent.indexFailure i e) s).loadingIndex = s.loadingIndex ∧
     (stepM truthy (MEvent.indexFailure i e) s).retries = s.retries ∧
     (stepM truthy (MEvent.indexFailure i e) s).error = s.error) := by
  constructor
  · refine ⟨by simp [stepM, loadingEffectM, refetchIndexOnSuccessM, setIdx],
      by simp [stepM, loadingEffectM, refetchIndexOnSuccessM, setIdx], ?_,
      rfl, rfl, rfl⟩
    intro j hj
    refine ⟨by simp [stepM, loadingEffectM, refetchIndexOnSuccessM, setIdx, hj],
      by simp [stepM, loadingEffectM, refetchIndexOnSuccessM, setIdx, hj], ?_⟩
    show (if truthyO truthy (setIdx s.data i (some resp.data) j) = true then false
      else s.loadingIndex j) = s.loadingIndex j
    rw [setIdx, if_neg hj]
    by_cases h : truthyO truthy (s.data j) = true
    · rw [if_pos h, hsync j h]
    · rw [if_neg h]
  · exact ⟨by simp [stepM, refetchIndexOnErrorM, setIdx],
      fun j hj => by simp [stepM, refetchIndexOnErrorM, setIdx, hj],
      rfl, rfl, rfl, rfl, rfl⟩

/-- Witness for C8: the frame theorem applied at the initial state (which is
loading-coherent) for a concrete per-index success. -/
theorem c8_amended_refetchIndex_frame_witness :
    loadingSynced natTruthy (initM Nat) ∧
    (stepM natTruthy (MEvent.indexSuccess 1 ⟨7, 200⟩) (initM Nat)).data 1
      = some (7 : Nat) := by
  have hs : loadingSynced natTruthy (initM Nat) := by
    intro u hu
    simp [initM, truthyO] at hu
  exact ⟨hs,
    (c8_amended_refetchIndex_frame natTruthy 1 ⟨7, 200⟩ ⟨none, false, none⟩
      (initM Nat) hs).1.1⟩

/-! ### The loadingIndex invariant (claim C5) -/

theorem runM_concat {α : Type} (truthy : α → Bool) (es : List (MEvent α)) (e : MEvent α) :
    runM truthy (es ++ [e]) = stepM truthy e (runM truthy es) := by
  rw [runM, runFromM_append_single, runM]

theorem stepM_data_nonsync {α : Type} (truthy : α → Bool) (e : MEvent α) (s : MState α)
    (h : syncsData e = false) :
    (stepM truthy e s).data = s.data := by
  cases e <;> simp_all [stepM, syncsData, onErrorM, refetchIndexOnErrorM, refetchM]

theorem stepM_li_nonsync {α : Type} (truthy : α → Bool) (e : MEvent α) (s : MState α)
    (h : syncsData e = false) :
    (stepM truthy e s).loadingIndex = s.loadingIndex := by
  cases e <;> simp_all [stepM, syncsData, onErrorM, refetchIndexOnErrorM, refetchM]

theorem stepM_li_sync {α : Type} (truthy : α → Bool) (e : MEvent α) (s : MState α)
    (h : syncsData e = true) (i : Nat) :
    (stepM truthy e s).loadingIndex i =
      if truthyO truthy ((stepM truthy e s).data i) then false else s.loadingIndex i := by
  cases e <;>
    simp_all [stepM, syncsData, loadingEffectM, onSuccessM, refetchIndexOnSuccessM, setDataM]

/-- Every reachable state of the multi-fetch orchestrator is loading-coherent:
a slot whose data is present and truthy is marked not loading. -/
theorem runM_loadingSynced {α : Type} (truthy : α → Bool) (es : List (MEvent α)) :
    loadingSynced truthy (runM truthy es) := by
  induction es using List.reverseRecOn with
  | nil =>
      intro t ht
      simp [runM, runFromM, initM, truthyO] at ht
  | append_singleton es e ih =>
      intro t ht
      rw [runM_concat] at ht ⊢
      cases hse : syncsData e with
      | false =>
          rw [stepM_li_nonsync truthy e _ hse]
          rw [stepM_data_nonsync truthy e _ hse] at ht
          exact ih t ht
      | true =>
          rw [stepM_li_sync truthy e _ hse t, ht]
          simp

theorem exists_take_concat {γ : Type} (P : List γ → Prop) (l : List γ) (x : γ) :
    (∃ n, P ((l ++ [x]).take n)) ↔ (∃ n, P (l.take n)) ∨ P (l ++ [x]) := by
  constructor
  · rintro ⟨n, hn⟩
    by_cases h : n ≤ l.length
    · exact Or.inl ⟨n, by rwa [List.take_append_of_le_length h] at hn⟩
    · refine Or.inr ?_
      rwa [List.take_of_length_le (by simp; omega)] at hn
  · rintro (⟨n, hn⟩ | h)
    · by_cases hle : n ≤ l.length
      · exact ⟨n, by rwa [List.take_append_of_le_length hle]⟩
      · refine ⟨l.length, ?_⟩
        rw [List.take_append_of_le_length le_rfl, List.take_length]
        rwa [List.take_of_length_le (by omega)] at hn
    · exact ⟨(l ++ [x]).length, by rwa [List.take_length]⟩

/-- C5: in the multi-fetch orchestrator, loadingIndex[i] is false exactly
when data[i] has been truthy at some point of the behaviour: it becomes
false the first time data[i] becomes non-empty (truthy), and never for any
other reason.  In particular a slot whose attempt only ever fails keeps
data[i] empty and hence loadingIndex[i] true forever. -/
theorem c5_loadingIndex_false_iff_data_was_truthy {α : Type} (truthy : α → Bool)
    (es : List (MEvent α)) (i : Nat) :
    (runM truthy es).loadingIndex i = false ↔
      ∃ n, truthyO truthy ((runM truthy (es.take n)).data i) = true := by
  induction es using List.reverseRecOn with
  | nil =>
      simp [runM, runFromM, initM, truthyO]
  | append_singleton es e ih =>
      rw [exists_take_concat (fun l => truthyO truthy ((runM truthy l).data i) = true) es e,
        runM_concat]
      cases hse : syncsData e with
      | false =>
          rw [stepM_li_nonsync truthy e _ hse]
          constructor
          · intro h
            exact Or.inl (ih.mp h)
          · rintro (h | h)
            · exact ih.mpr h
            · rw [stepM_data_nonsync truthy e _ hse] at h
              exact runM_loadingSynced truthy es i h
      | true =>
          rw [stepM_li_sync truthy e _ hse i]
          by_cases hD : truthyO truthy ((stepM truthy e (runM truthy es)).data i) = true
          · simp [hD]
          · rw [if_neg hD]
            constructor
            · intro h
              exact Or.inl (ih.mp h)
            · rintro (h | h)
              · exact ih.mpr h
              · exact absurd h hD

/-! ### Bulk cycles: order independence and outcome counts (claim C4) -/

theorem setIdx_comm {β : Type} (f : Nat → Option β) (i j : Nat) (v w : Option β)
    (h : i ≠ j) :
    setIdx (setIdx f i v) j w = setIdx (setIdx f j w) i v := by
  funext t
  simp only [setIdx]
  by_cases hi : t = i <;> by_cases hj : t = j <;> simp_all

theorem settle_data_preserved {α : Type} (truthy : α → Bool) (p : Nat × MOutcome α)
    (s : MState α) (t : Nat) (h : t ≠ p.1) :
    (stepM truthy (settleEv p) s).data t = s.data t := by
  obtain ⟨i, o⟩ := p
  cases o with
  | success r => simp [settleEv, stepM, loadingEffectM, onSuccessM, setIdx, h]
  | failure e => rfl

/-- Two bulk settlements at distinct, previously-unwritten indices commute:
the final state does not depend on which handler ran first. -/
theorem stepM_settle_comm {α : Type} (truthy : α → Bool) (p q : Nat × MOutcome α)
    (s : MState α) (hpq : p.1 ≠ q.1) (hp : s.data p.1 = none) (hq : s.data q.1 = none) :
    stepM truthy (settleEv p) (stepM truthy (settleEv q) s)
      = stepM truthy (settleEv q) (stepM truthy (settleEv p) s) := by
  obtain ⟨i, o1⟩ := p
  obtain ⟨j, o2⟩ := q
  simp only at hpq hp hq
  cases o1 with
  | success r1 =>
      cases o2 with
      | success r2 =>
          simp only [settleEv, stepM, loadingEffectM, onSuccessM]
          refine MState.ext ((setIdx_comm s.data j i _ _ (Ne.symm hpq))) rfl rfl
            ((setIdx_comm s.responses j i _ _ (Ne.symm hpq))) ?_ rfl
          funext t
          by_cases hti : t = i
          · subst hti
            by_cases hc : truthy r1.data = true <;>
              simp [setIdx, hpq, hp, truthyO, hc]
          · by_cases htj : t = j
            · subst htj
              by_cases hc : truthy r2.data = true <;>
                simp [setIdx, Ne.symm hpq, hq, truthyO, hc, hti]
            · simp [setIdx, hti, htj]
      | failure e2 => rfl
  | failure e1 =>
      cases o2 with
      | success r2 => rfl
      | failure e2 =>
          simp only [settleEv, stepM, onErrorM]
          exact MState.ext rfl (setIdx_comm s.errors j i _ _ (Ne.symm hpq)) rfl rfl rfl rfl

/-- The final state of a run of bulk settlements at pairwise distinct fresh
indices is invariant under permutation of the completion order. -/
theorem runFromM_settle_perm {α : Type} (truthy : α → Bool)
    {L L' : List (Nat × MOutcome α)} (hperm : L.Perm L') :
    ∀ s : MState α, (L.map Prod.fst).Nodup → (∀ p ∈ L, s.data p.1 = none) →
      runFromM truthy s (L.map settleEv) = runFromM truthy s (L'.map settleEv) := by
  induction hperm with
  | nil =>
      intro s _ _
      rfl
  | cons x hp ih =>
      intro s hnd hfresh
      simp only [List.map_cons, runFromM_cons]
      refine ih (stepM truthy (settleEv x) s) ?_ ?_
      · exact (List.nodup_cons.mp (by simpa using hnd)).2
      · intro p hp2
        have hne : p.1 ≠ x.1 := by
          intro hcontra
          exact (List.nodup_cons.mp (by simpa using hnd)).1
            (hcontra ▸ List.mem_map_of_mem Prod.fst hp2)
        rw [settle_data_preserved truthy x s p.1 hne]
        exact hfresh p (List.mem_cons_of_mem x hp2)
  | swap x y l =>
      intro s hnd hfresh
      simp only [List.map_cons, runFromM_cons]
      have hnd' := hnd
      simp only [List.map_cons, List.nodup_cons] at hnd'
      have hxy : x.1 ≠ y.1 := by
        intro h
        exact hnd'.1 (by rw [← h]; exact List.mem_cons_self _ _)
      have hx : s.data x.1 = none := hfresh x (by simp)
      have hy : s.data y.1 = none := hfresh y (by simp)
      rw [stepM_settle_comm truthy x y s hxy hx hy]
  | trans h12 h23 ih12 ih23 =>
      intro s hnd hfresh
      rw [ih12 s hnd hfresh]
      refine ih23 s ((h12.map Prod.fst).nodup hnd) ?_
      intro p hp2
      exact hfresh p (h12.mem_iff.mpr hp2)

theorem countP_setIdx_fresh {β : Type} (f : Nat → Option β) (i : Nat) (v : β)
    (l : List Nat) (hf : f i = none) :
    l.countP (fun t => ((setIdx f i (some v)) t).isSome)
      = l.countP (fun t => (f t).isSome) + l.count i := by
  induction l with
  | nil => rfl
  | cons a l ih =>
      rw [List.countP_cons, List.countP_cons, List.count_cons, ih]
      by_cases ha : a = i
      · subst ha
        simp [setIdx, hf]
        omega
      · simp [setIdx, ha, Ne.symm ha]
        omega

theorem countSome_setIdx_fresh {β : Type} (f : Nat → Option β) (i : Nat) (v : β)
    (N : Nat) (hf : f i = none) (hi : i < N) :
    countSome (setIdx f i (some v)) N = countSome f N + 1 := by
  rw [countSome, countSome, countP_setIdx_fresh f i v _ hf,
    List.count_eq_one_of_mem (List.nodup_range N) (List.mem_range.mpr hi)]

theorem countP_add_countP_not {γ : Type} (L : List γ) (f : γ → Bool) :
    L.countP f + L.countP (fun x => !f x) = L.length := by
  induction L with
  | nil => rfl
  | cons a L ih =>
      rw [List.countP_cons, List.countP_cons, List.length_cons]
      by_cases h : f a = true <;> simp [h] <;> omega

/-- After a run of bulk settlements at pairwise distinct fresh indices below
N, the number of present errors entries grows by the number of failures and
the number of present data entries by the number of successes. -/
theorem runFromM_settle_counts {α : Type} (truthy : α → Bool) (N : Nat)
    (L : List (Nat × MOutcome α)) :
    ∀ s : MState α, (L.map Prod.fst).Nodup → (∀ p ∈ L, p.1 < N) →
      (∀ p ∈ L, s.data p.1 = none ∧ s.errors p.1 = none) →
      countSome (runFromM truthy s (L.map settleEv)).errors N
          = countSome s.errors N + L.countP (fun p => isFailO p.2) ∧
      countSome (runFromM truthy s (L.map settleEv)).data N
          = countSome s.data N + L.countP (fun p => !isFailO p.2) := by
  induction L with
  | nil =>
      intro s _ _ _
      simp [runFromM]
  | cons p L ih =>
      intro s hnd hlt hfresh
      obtain ⟨i, o⟩ := p
      have hnd' : (L.map Prod.fst).Nodup := (List.nodup_cons.mp (by simpa using hnd)).2
      have hmemx : i ∉ L.map Prod.fst := (List.nodup_cons.mp (by simpa using hnd)).1
      have hlt' : ∀ q ∈ L, q.1 < N := fun q hq => hlt q (List.mem_cons_of_mem _ hq)
      have hdi : s.data i = none := (hfresh (i, o) (List.mem_cons_self _ _)).1
      have hei : s.errors i = none := (hfresh (i, o) (List.mem_cons_self _ _)).2
      have hiN : i < N := hlt (i, o) (List.mem_cons_self _ _)
      simp only [List.map_cons, runFromM_cons, List.countP_cons]
      cases o with
      | success r =>
          have hfresh' : ∀ q ∈ L,
              (stepM truthy (settleEv (i, MOutcome.success r)) s).data q.1 = none ∧
              (stepM truthy (settleEv (i, MOutcome.success r)) s).errors q.1 = none := by
            intro q hq
            have hne : q.1 ≠ i := fun hcontra =>
              hmemx (hcontra ▸ List.mem_map_of_mem Prod.fst hq)
            refine ⟨?_, (hfresh q (List.mem_cons_of_mem _ hq)).2⟩
            show setIdx s.data i (some r.data) q.1 = none
            rw [setIdx]
            rw [if_neg hne]
            exact (hfresh q (List.mem_cons_of_mem _ hq)).1
          obtain ⟨he, hd⟩ :=
            ih (stepM truthy (settleEv (i, MOutcome.success r)) s) hnd' hlt' hfresh'
          refine ⟨?_, ?_⟩
          · rw [he]
            show countSome s.errors N + _ = _
            simp [isFailO]
          · rw [hd]
            show countSome (setIdx s.data i (some r.data)) N + _ = _
            rw [countSome_setIdx_fresh s.data i r.data N hdi hiN]
            simp [isFailO]
            omega
      | failure e =>
          have hfresh' : ∀ q ∈ L,
              (stepM truthy (settleEv (i, MOutcome.failure e)) s).data q.1 = none ∧
              (stepM truthy (settleEv (i, MOutcome.failure e)) s).errors q.1 = none := by
            intro q hq
            have hne : q.1 ≠ i := fun hcontra =>
              hmemx (hcontra ▸ List.mem_map_of_mem Prod.fst hq)
            refine ⟨(hfresh q (List.mem_cons_of_mem _ hq)).1, ?_⟩
            show setIdx s.errors i (some (orFallback e.message)) q.1 = none
            rw [setIdx]
            rw [if_neg hne]
            exact (hfresh q (List.mem_cons_of_mem _ hq)).2
          obtain ⟨he, hd⟩ :=
            ih (stepM truthy (settleEv (i, MOutcome.failure e)) s) hnd' hlt' hfresh'
          refine ⟨?_, ?_⟩
          · rw [he]
            show countSome (setIdx s.errors i (some (orFallback e.message))) N + _ = _
            rw [countSome_setIdx_fresh s.errors i (orFallback e.message) N hei hiN]
            simp [isFailO]
            omega
          · rw [hd]
            show countSome s.data N + _ = _
            simp [isFailO]

/-- C4 counterexample: the exact outcome counts fail for a bulk cycle that
does not start from the initial state, because data and errors are never
cleared between generations.  With N = 1: generation 1 succeeds at slot 0,
refetch starts generation 2, and its single attempt fails (k = 1, so the
claim demands N - k = 0 populated data entries); yet the final state keeps
the stale populated data entry from generation 1. -/
theorem c4_counterexample_stale_entries_persist :
    countSome (runM natTruthy [MEvent.bulkSuccess 0 ⟨1, 200⟩, MEvent.refetch,
        MEvent.genStart, MEvent.bulkFailure 0 ⟨some "timeout", false, none⟩]).errors 1 = 1 ∧
    ¬ countSome (runM natTruthy [MEvent.bulkSuccess 0 ⟨1, 200⟩, MEvent.refetch,
        MEvent.genStart, MEvent.bulkFailure 0 ⟨some "timeout", false, none⟩]).data 1 = 0 := by
  refine ⟨by decide, by decide⟩


/-- Pointwise location of outcomes after a run of bulk settlements at
pairwise distinct fresh indices: an errors entry is present exactly at the
indices that were already set or settled with a failure, and a data entry
exactly at the indices already set or settled with a success. -/
theorem runFromM_settle_lookup {α : Type} (truthy : α → Bool)
    (L : List (Nat × MOutcome α)) :
    ∀ s : MState α, (L.map Prod.fst).Nodup →
      (∀ p ∈ L, s.data p.1 = none ∧ s.errors p.1 = none) →
      ∀ t : Nat,
        (((runFromM truthy s (L.map settleEv)).errors t).isSome = true ↔
          ((s.errors t).isSome = true ∨ ∃ e, (t, MOutcome.failure e) ∈ L)) ∧
        (((runFromM truthy s (L.map settleEv)).data t).isSome = true ↔
          ((s.data t).isSome = true ∨ ∃ r, (t, MOutcome.success r) ∈ L)) := by
  induction L with
  | nil =>
      intro s _ _ t
      simp [runFromM]
  | cons p L ih =>
      intro s hnd hfresh t
      obtain ⟨i, o⟩ := p
      have hnd' : (L.map Prod.fst).Nodup := (List.nodup_cons.mp (by simpa using hnd)).2
      have hmemx : i ∉ L.map Prod.fst := (List.nodup_cons.mp (by simpa using hnd)).1
      simp only [List.map_cons, runFromM_cons]
      cases o with
      | success r =>
          have hfresh' : ∀ q ∈ L,
              (stepM truthy (settleEv (i, MOutcome.success r)) s).data q.1 = none ∧
              (stepM truthy (settleEv (i, MOutcome.success r)) s).errors q.1 = none := by
            intro q hq
            have hne : q.1 ≠ i := fun hcontra =>
              hmemx (hcontra ▸ List.mem_map_of_mem Prod.fst hq)
            refine ⟨?_, (hfresh q (List.mem_cons_of_mem _ hq)).2⟩
            show setIdx s.data i (some r.data) q.1 = none
            simp only [setIdx]
            rw [if_neg hne]
            exact (hfresh q (List.mem_cons_of_mem _ hq)).1
          obtain ⟨he, hd⟩ :=
            ih (stepM truthy (settleEv (i, MOutcome.success r)) s) hnd' hfresh' t
          constructor
          · rw [he]
            show ((s.errors t).isSome = true ∨ _) ↔ _
            simp [List.mem_cons]
          · rw [hd]
            show ((setIdx s.data i (some r.data) t).isSome = true ∨ _) ↔ _
            simp only [setIdx]
            by_cases ht : t = i
            · subst ht
              simp only [if_pos rfl, Option.isSome_some]
              constructor
              · intro _
                exact Or.inr ⟨r, List.mem_cons_self _ _⟩
              · intro _
                exact Or.inl rfl
            · simp only [if_neg ht]
              simp [List.mem_cons, Prod.mk.injEq, ht]
      | failure e =>
          have hfresh' : ∀ q ∈ L,
              (stepM truthy (settleEv (i, MOutcome.failure e)) s).data q.1 = none ∧
              (stepM truthy (settleEv (i, MOutcome.failure e)) s).errors q.1 = none := by
            intro q hq
            have hne : q.1 ≠ i := fun hcontra =>
              hmemx (hcontra ▸ List.mem_map_of_mem Prod.fst hq)
            refine ⟨(hfresh q (List.mem_cons_of_mem _ hq)).1, ?_⟩
            show setIdx s.errors i (some (orFallback e.message)) q.1 = none
            simp only [setIdx]
            rw [if_neg hne]
            exact (hfresh q (List.mem_cons_of_mem _ hq)).2
          obtain ⟨he, hd⟩ :=
            ih (stepM truthy (settleEv (i, MOutcome.failure e)) s) hnd' hfresh' t
          constructor
          · rw [he]
            show ((setIdx s.errors i (some (orFallback e.message)) t).isSome = true ∨ _) ↔ _
            simp only [setIdx]
            by_cases ht : t = i
            · subst ht
              simp only [if_pos rfl, Option.isSome_some]
              constructor
              · intro _
                exact Or.inr ⟨e, List.mem_cons_self _ _⟩
              · intro _
                exact Or.inl rfl
            · simp only [if_neg ht]
              simp [List.mem_cons, Prod.mk.injEq, ht]
          · rw [hd]
            show ((s.data t).isSome = true ∨ _) ↔ _
            simp [List.mem_cons]

/-- C4 (amended): for a bulk cycle run from the initial (mount) state over N
resources — every index of range N settling exactly once, no outcome
cancelled — the final state has exactly k present errors entries and N - k
populated data entries, where k is the number of failed attempts; the
present errors entries sit exactly at the failed indices and the populated
data entries exactly at the succeeded indices; and the entire final state
is identical for every completion order.  The no-cancellation hypothesis
mirrors the claim; the proof does not consume it because the code treats
cancelled rejections like ordinary failures (the defect recorded at C2). -/
theorem c4_amended_first_cycle_counts {α : Type} (truthy : α → Bool) (N : Nat)
    (L L' : List (Nat × MOutcome α))
    (hcov : (L.map Prod.fst).Perm (List.range N))
    (hnc : ∀ p ∈ L, isCancelledO p.2 = false)
    (hperm : L.Perm L') :
    countSome (runM truthy (L.map settleEv)).errors N
        = L.countP (fun p => isFailO p.2) ∧
    countSome (runM truthy (L.map settleEv)).data N
        = N - L.countP (fun p => isFailO p.2) ∧
    (∀ t : Nat, (((runM truthy (L.map settleEv)).errors t).isSome = true ↔
        ∃ e, (t, MOutcome.failure e) ∈ L)) ∧
    (∀ t : Nat, (((runM truthy (L.map settleEv)).data t).isSome = true ↔
        ∃ r, (t, MOutcome.success r) ∈ L)) ∧
    runM truthy (L'.map settleEv) = runM truthy (L.map settleEv) := by
  have hnd : (L.map Prod.fst).Nodup := hcov.symm.nodup (List.nodup_range N)
  have hlt : ∀ p ∈ L, p.1 < N := by
    intro p hp
    exact List.mem_range.mp (hcov.mem_iff.mp (List.mem_map_of_mem Prod.fst hp))
  have hfresh : ∀ p ∈ L, (initM α).data p.1 = none ∧ (initM α).errors p.1 = none :=
    fun p _ => ⟨rfl, rfl⟩
  have hlen : L.length = N := by
    have h := hcov.length_eq
    simpa using h
  obtain ⟨he, hd⟩ := runFromM_settle_counts truthy N L (initM α) hnd hlt hfresh
  have hinit_err : countSome (initM α).errors N = 0 := by
    simp [countSome, initM]
  have hinit_data : countSome (initM α).data N = 0 := by
    simp [countSome, initM]
  have hrm : ∀ es : List (MEvent α), runM truthy es = runFromM truthy (initM α) es :=
    fun _ => rfl
  refine ⟨?_, ?_, ?_, ?_, ?_⟩
  · rw [hrm, he, hinit_err]
    omega
  · rw [hrm, hd, hinit_data]
    have hsum := countP_add_countP_not L (fun p => isFailO p.2)
    omega
  · intro t
    have h := (runFromM_settle_lookup truthy L (initM α) hnd hfresh t).1
    rw [hrm, h]
    simp [initM]
  · intro t
    have h := (runFromM_settle_lookup truthy L (initM α) hnd hfresh t).2
    rw [hrm, h]
    simp [initM]
  · rw [hrm, hrm]
    exact (runFromM_settle_perm truthy hperm (initM α) hnd (fun p _ => rfl)).symm

/-- Witness for C4 (amended): a two-resource mount cycle, one success and
one failure, with the two completion orders swapped. -/
theorem c4_amended_first_cycle_counts_witness :
    (([((0 : Nat), MOutcome.success (⟨1, 200⟩ : AxiosResp Nat)),
       (1, MOutcome.failure ⟨some "boom", false, none⟩)].map Prod.fst).Perm
        (List.range 2)) ∧
    countSome (runM natTruthy
        ([((0 : Nat), MOutcome.success (⟨1, 200⟩ : AxiosResp Nat)),
          (1, MOutcome.failure ⟨some "boom", false, none⟩)].map settleEv)).errors 2
      = [((0 : Nat), MOutcome.success (⟨1, 200⟩ : AxiosResp Nat)),
         (1, MOutcome.failure ⟨some "boom", false, none⟩)].countP
           (fun p => isFailO p.2) := by
  have hcov : (([((0 : Nat), MOutcome.success (⟨1, 200⟩ : AxiosResp Nat)),
      (1, MOutcome.failure ⟨some "boom", false, none⟩)].map Prod.fst).Perm
        (List.range 2)) := List.Perm.refl _
  have hperm : ([((0 : Nat), MOutcome.success (⟨1, 200⟩ : AxiosResp Nat)),
      (1, MOutcome.failure ⟨some "boom", false, none⟩)]).Perm
        ([(1, MOutcome.failure ⟨some "boom", false, none⟩),
          ((0 : Nat), MOutcome.success (⟨1, 200⟩ : AxiosResp Nat))]) :=
    List.Perm.swap _ _ _
  exact ⟨hcov,
    (c4_amended_first_cycle_counts natTruthy 2 _ _ hcov (by decide) hperm).1⟩
